import Mathlib

/-!
Verification of the policy-compliance proof subsystem of the agents-of-truth
repository: the ENS policy resolver (`packages/agent/src/ens.ts`), the policy
fingerprint (`computePolicyHash`), the Circom compliance circuit
(`packages/agent/src/zk/circuit.circom`), the proof generator
(`packages/agent/src/zk/prove.ts`) and the proof verifier interface.

The TypeScript/Circom sources are shallowly embedded: JavaScript numbers are
modelled by `JSNum` (NaN, the two infinities, and exact decimal values for the
finite numbers arising from decimal-string parsing), strings by Lean `String`
with explicit UTF-16 code-unit views where JavaScript semantics are code-unit
based, and stateful/IO-bound code by explicit environment records and state
passing.  All definitions are executable, so concrete runs reduce by `decide`.
-/

/- ================================
   JavaScript number model
   ================================ -/

/-- A finite JavaScript number as it occurs in the policy pipeline: an exact
decimal `mant × 10 ^ exp`.  The values reaching this code are decimal literals
parsed by `parseFloat`; IEEE-754 rounding is not modelled, which affects
neither NaN-ness, sign, comparisons, nor the printed digits of the short
canonical decimals handled here.  The representation is not canonical; the
semantic value is `JSDec.toRat`. -/
structure JSDec where
  mant : Int
  exp : Int
deriving DecidableEq, Repr

/-- The rational value of a decimal. -/
def JSDec.toRat (d : JSDec) : ℚ := (d.mant : ℚ) * (10 : ℚ) ^ d.exp

/-- The first component's mantissa after bringing `a` and `b` to their common
(smaller) exponent; comparisons of decimals compare aligned mantissas. -/
def JSDec.alignFst (a b : JSDec) : Int :=
  if a.exp ≤ b.exp then a.mant else a.mant * 10 ^ (a.exp - b.exp).toNat

/-- Strict order on decimals (the value order). -/
def JSDec.blt (a b : JSDec) : Bool := JSDec.alignFst a b < JSDec.alignFst b a

/-- Non-strict order on decimals (the value order). -/
def JSDec.ble (a b : JSDec) : Bool := JSDec.alignFst a b ≤ JSDec.alignFst b a

/-- Negation of a decimal. -/
def JSDec.neg (d : JSDec) : JSDec := ⟨-d.mant, d.exp⟩

/-- Multiplication of decimals. -/
def JSDec.mul (a b : JSDec) : JSDec := ⟨a.mant * b.mant, a.exp + b.exp⟩

/-- `Math.floor` of a decimal (floor division for negative mantissas). -/
def JSDec.floor (d : JSDec) : Int :=
  if 0 ≤ d.exp then d.mant * 10 ^ d.exp.toNat
  else d.mant.fdiv (10 ^ (-d.exp).toNat)

/-- A JavaScript number as it occurs in the policy pipeline: `NaN`, the two
infinities, or a finite decimal. -/
inductive JSNum where
  | nan : JSNum
  | inf : JSNum
  | negInf : JSNum
  | fin : JSDec → JSNum
deriving DecidableEq, Repr

/-- JavaScript `isNaN` (the source's `isNaN(maxSpendUSDC)` check). -/
def JSNum.isNaN : JSNum → Bool
  | JSNum.nan => true
  | _ => false

/-- JavaScript `<` on numbers: false whenever an operand is NaN. -/
def jsLt : JSNum → JSNum → Bool
  | JSNum.nan, _ => false
  | _, JSNum.nan => false
  | JSNum.negInf, JSNum.negInf => false
  | JSNum.negInf, _ => true
  | _, JSNum.negInf => false
  | JSNum.inf, _ => false
  | JSNum.fin _, JSNum.inf => true
  | JSNum.fin a, JSNum.fin b => JSDec.blt a b

/-- JavaScript `<=` on numbers: false whenever an operand is NaN. -/
def jsLe : JSNum → JSNum → Bool
  | JSNum.nan, _ => false
  | _, JSNum.nan => false
  | JSNum.negInf, _ => true
  | _, JSNum.negInf => false
  | _, JSNum.inf => true
  | JSNum.inf, _ => false
  | JSNum.fin a, JSNum.fin b => JSDec.ble a b

/-- JavaScript `>=` on numbers (`a >= b` holds iff `b <= a`; NaN compares false). -/
def jsGe (a b : JSNum) : Bool := jsLe b a

/-- JavaScript `>` on numbers. -/
def jsGt (a b : JSNum) : Bool := jsLt b a

/-- The number zero. -/
def jsZero : JSNum := JSNum.fin ⟨0, 0⟩

/- ================================
   JavaScript string primitives
   ================================ -/

/-- The whitespace alphabet used by `String.prototype.trim` and by the
leading-whitespace skip of `parseFloat` (ECMAScript WhiteSpace and
LineTerminator; modelled by the ASCII members plus NBSP). -/
def isJsSpace (c : Char) : Bool :=
  c = ' ' ∨ c = '\t' ∨ c = '\n' ∨ c = '\r' ∨ c = '\x0b' ∨ c = '\x0c' ∨ c = '\xa0'

/-- Drop leading and trailing whitespace from a character list. -/
def trimCharList (l : List Char) : List Char :=
  ((l.dropWhile isJsSpace).reverse.dropWhile isJsSpace).reverse

/-- JavaScript `String.prototype.trim`. -/
def jsTrim (s : String) : String := String.mk (trimCharList s.data)

/-- JavaScript `String.prototype.toLowerCase`, modelled on its ASCII fragment
(the case mapping of the code units 65–90, `A`–`Z`; other characters are
returned unchanged). -/
def jsToLowerChar (c : Char) : Char :=
  if 65 ≤ c.toNat ∧ c.toNat ≤ 90 then Char.ofNat (c.toNat + 32) else c

/-- JavaScript `String.prototype.toLowerCase` on a whole string. -/
def jsToLower (s : String) : String := String.mk (s.data.map jsToLowerChar)

/-- Worker for `jsSplit`: splits at every occurrence of `sep`, accumulating the
current segment in reverse. -/
def splitOnCharAux (sep : Char) : List Char → List Char → List (List Char)
  | [], acc => [acc.reverse]
  | c :: rest, acc =>
    if c = sep then acc.reverse :: splitOnCharAux sep rest []
    else splitOnCharAux sep rest (c :: acc)

/-- JavaScript `String.prototype.split` with a one-character separator
(`"".split(",")` yields `[""]`, like the source's `allowedActionsRaw.split(',')`). -/
def jsSplit (s : String) (sep : Char) : List String :=
  (splitOnCharAux sep s.data []).map String.mk

/- ================================
   UTF-16 code units and the default sort order
   ================================ -/

/-- The UTF-16 encoding of one character (one code unit for BMP scalars, a
surrogate pair otherwise); JavaScript strings and `charCodeAt` are sequences
of these units. -/
def charUTF16 (c : Char) : List Nat :=
  if c.toNat < 0x10000 then [c.toNat]
  else [0xd800 + (c.toNat - 0x10000) / 0x400, 0xdc00 + (c.toNat - 0x10000) % 0x400]

/-- The UTF-16 code-unit sequence of a string (what `charCodeAt` iterates). -/
def stringUTF16 (s : String) : List Nat := s.data.flatMap charUTF16

/-- Decoder for UTF-16 code-unit sequences; used to show `stringUTF16` is
injective. -/
def utf16Decode : List Nat → List Char
  | [] => []
  | u :: rest =>
    if 0xd800 ≤ u ∧ u < 0xdc00 then
      match rest with
      | lo :: rest2 =>
        Char.ofNat (0x10000 + (u - 0xd800) * 0x400 + (lo - 0xdc00)) :: utf16Decode rest2
      | [] => []
    else Char.ofNat u :: utf16Decode rest

/-- Lexicographic `≤` on code-unit sequences: the comparison JavaScript's
default `Array.prototype.sort` and the `<` operator apply to strings. -/
def lexLe : List Nat → List Nat → Bool
  | [], _ => true
  | _ :: _, [] => false
  | a :: as, b :: bs => if a < b then true else if b < a then false else lexLe as bs

/-- JavaScript's default string order (code-unit lexicographic). -/
def utf16Le (a b : String) : Bool := lexLe (stringUTF16 a) (stringUTF16 b)

/-- JavaScript `Array.prototype.sort()` on an array of strings: a stable sort
by the default code-unit lexicographic order (ECMAScript requires stability;
for identical-string keys every stable sort computes the same result). -/
def jsSortStrings (l : List String) : List String :=
  l.insertionSort (fun a b => utf16Le a b = true)

/- ================================
   JavaScript number-to-string and JSON serialization
   ================================ -/

/-- Remove trailing `'0'` characters (of a fractional part). -/
def stripTrailingZeros (l : List Char) : List Char :=
  (l.reverse.dropWhile (· = '0')).reverse

/-- Left-pad a digit string with `'0'` up to width `k`. -/
def padLeftZeros (k : Nat) (l : List Char) : List Char :=
  List.replicate (k - l.length) '0' ++ l

/-- JavaScript number-to-string for the finite values arising here: sign,
integer digits, and the (terminating) fractional expansion with trailing
zeros dropped.  JavaScript prints the shortest round-tripping decimal, which
coincides with this on the canonical short decimals this code handles
(values at or above `1e21`, which JavaScript prints in exponential notation,
do not arise). -/
def decToString (d : JSDec) : String :=
  let m := d.mant.natAbs
  let sign := if d.mant < 0 then "-" else ""
  if 0 ≤ d.exp then
    sign ++ Nat.repr (m * 10 ^ d.exp.toNat)
  else
    let k := (-d.exp).toNat
    let ip := m / 10 ^ k
    let r := m % 10 ^ k
    let frac := stripTrailingZeros (padLeftZeros k (Nat.repr r).data)
    sign ++ Nat.repr ip ++ (if frac = [] then "" else "." ++ String.mk frac)

/-- JavaScript `String(n)` for a number (template-literal interpolation). -/
def jsNumToString : JSNum → String
  | JSNum.nan => "NaN"
  | JSNum.inf => "Infinity"
  | JSNum.negInf => "-Infinity"
  | JSNum.fin d => decToString d

/-- `JSON.stringify` of a number value: non-finite numbers serialize as
`null`. -/
def jsonNumber : JSNum → String
  | JSNum.fin d => decToString d
  | _ => "null"

/-- Lowercase hexadecimal digit. -/
def hexDigitChar (n : Nat) : Char :=
  if n < 10 then Char.ofNat ('0'.toNat + n) else Char.ofNat ('a'.toNat + (n - 10))

/-- `JSON.stringify` escaping of one character inside a string literal. -/
def jsonEscapeChar (c : Char) : List Char :=
  if c = '"' then ['\\', '"']
  else if c = '\\' then ['\\', '\\']
  else if c = '\x08' then ['\\', 'b']
  else if c = '\x0c' then ['\\', 'f']
  else if c = '\n' then ['\\', 'n']
  else if c = '\r' then ['\\', 'r']
  else if c = '\t' then ['\\', 't']
  else if c.toNat < 0x20 then
    ['\\', 'u', '0', '0', hexDigitChar (c.toNat / 16), hexDigitChar (c.toNat % 16)]
  else [c]

/-- `JSON.stringify` of a string value. -/
def jsonQuote (s : String) : String :=
  String.mk ('"' :: s.data.flatMap jsonEscapeChar ++ ['"'])

/- ================================
   parseFloat
   ================================ -/

/-- ASCII decimal digit test. -/
def isAsciiDigit (c : Char) : Bool := '0' ≤ c ∧ c ≤ '9'

/-- Numeric value of a digit run. -/
def digitsToNat (l : List Char) : Nat :=
  l.foldl (fun acc c => acc * 10 + (c.toNat - '0'.toNat)) 0

/-- The optional exponent part after a mantissa: consumed only when `e`/`E` is
followed by at least one (optionally signed) digit run; otherwise `parseFloat`
stops before it. -/
def parseExpAfterE : List Char → Option Int
  | '+' :: rest =>
    let ds := rest.takeWhile isAsciiDigit
    if ds = [] then none else some (digitsToNat ds)
  | '-' :: rest =>
    let ds := rest.takeWhile isAsciiDigit
    if ds = [] then none else some (-(digitsToNat ds : Int))
  | rest =>
    let ds := rest.takeWhile isAsciiDigit
    if ds = [] then none else some (digitsToNat ds)

/-- Exponent applied to the mantissa, 0 when no exponent part is present. -/
def parseExpOpt : List Char → Int
  | c :: rest => if c = 'e' ∨ c = 'E' then (parseExpAfterE rest).getD 0 else 0
  | [] => 0

/-- The unsigned part of ECMAScript `StrDecimalLiteral`: `Infinity`, or digits
with an optional fraction and exponent; `none` when no prefix of the input
matches (→ NaN). -/
def parseUnsignedFloat (l : List Char) : Option JSNum :=
  if l.take 8 = "Infinity".data then some JSNum.inf
  else
    let ip := l.takeWhile isAsciiDigit
    let rest := l.dropWhile isAsciiDigit
    match rest with
    | '.' :: rest2 =>
      let fp := rest2.takeWhile isAsciiDigit
      let rest3 := rest2.dropWhile isAsciiDigit
      if ip = [] ∧ fp = [] then none
      else some (JSNum.fin
        ⟨(digitsToNat ip * 10 ^ fp.length + digitsToNat fp : ℕ),
          parseExpOpt rest3 - fp.length⟩)
    | _ =>
      if ip = [] then none
      else some (JSNum.fin ⟨(digitsToNat ip : ℕ), parseExpOpt rest⟩)

/-- ECMAScript `parseFloat`: skip leading whitespace, parse the longest prefix
that is a signed decimal literal (or `Infinity`), NaN when there is none. -/
def jsParseFloat (s : String) : JSNum :=
  let l := s.data.dropWhile isJsSpace
  match l with
  | '+' :: rest => (parseUnsignedFloat rest).getD JSNum.nan
  | '-' :: rest =>
    match parseUnsignedFloat rest with
    | some JSNum.inf => JSNum.negInf
    | some (JSNum.fin d) => JSNum.fin (JSDec.neg d)
    | _ => JSNum.nan
  | rest => (parseUnsignedFloat rest).getD JSNum.nan

/- ================================
   Policy fingerprint (ens.ts, computePolicyHash)
   ================================ -/

/-- `JSON.stringify` of the object literal `\x7b maxSpendUSDC, allowedActions,
policyVersion \x7d` built in `computePolicyHash` (fields serialize in
declaration order). -/
def policyJSONString (maxSpendUSDC : JSNum) (allowedActions : List String)
    (policyVersion : String) : String :=
  "\x7b\"maxSpendUSDC\":" ++ jsonNumber maxSpendUSDC ++
    ",\"allowedActions\":[" ++ String.intercalate "," (allowedActions.map jsonQuote) ++
    "],\"policyVersion\":" ++ jsonQuote policyVersion ++ "\x7d"

/-- JavaScript `ToInt32` (the effect of `hash & hash` and of `<<` on the
operand and result): wrap into `[-2^31, 2^31)`. -/
def toInt32 (x : Int) : Int := (x + 2 ^ 31) % 2 ^ 32 - 2 ^ 31

/-- One iteration of the fingerprint loop:
`hash = ((hash << 5) - hash) + charCode; hash = hash & hash`. -/
def hashStep (h : Int) (c : Nat) : Int := toInt32 (toInt32 (h * 32) - h + c)

/-- The 32-bit string hash folded over the UTF-16 code units of `s`
(`charCodeAt` indexes code units). -/
def strHash32 (s : String) : Int := (stringUTF16 s).foldl hashStep 0

/-- `computePolicyHash` (ens.ts): serialize
`\x7b maxSpendUSDC, allowedActions.sort(), policyVersion \x7d` to JSON, fold
the 32-bit hash over it, and return `BigInt(Math.abs(hash)).toString()`.
Note `.sort()` sorts the `allowedActions` array in place. -/
def computePolicyHash (maxSpendUSDC : JSNum) (allowedActions : List String)
    (policyVersion : String) : String :=
  let policyString := policyJSONString maxSpendUSDC (jsSortStrings allowedActions) policyVersion
  Nat.repr (strHash32 policyString).natAbs

/- ================================
   ENS policy resolution (ens.ts)
   ================================ -/

/-- The `ENSPolicy` record (types.ts). -/
structure ENSPolicy where
  ensName : String
  maxSpendUSDC : JSNum
  allowedActions : List String
  policyVersion : String
  fetchedAt : Nat
  policyHash : String
deriving DecidableEq, Repr

/-- The `PolicyError` class (ens.ts): message plus machine-readable code. -/
structure PolicyError where
  message : String
  code : String
deriving DecidableEq, Repr

/-- Raw ENS text records for the three policy keys (`ENSTextRecords`,
types.ts); `none` models an absent key. -/
structure ENSTextRecords where
  maxSpendUSDC : Option String
  allowedActions : Option String
  policyVersion : Option String
deriving DecidableEq, Repr

/-- The external world of the resolver: the `viem` ENS name normalization and
the per-name, per-key `getEnsText` lookups (`none` models both a rejected
promise and a null record). -/
structure ENSEnv where
  normalize : String → String
  fetchText : String → String → Option String

/-- Keep a fetched value only when the promise fulfilled with a truthy string
(the `result.status === 'fulfilled' && result.value.value` filter). -/
def keepTruthy (o : Option String) : Option String :=
  match o with
  | some s => if s = "" then none else some s
  | none => none

/-- `fetchENSTextRecords` (ens.ts): fetch the three policy keys in parallel,
keeping only fulfilled, truthy values. -/
def fetchENSTextRecords (env : ENSEnv) (ensName : String) : ENSTextRecords :=
  { maxSpendUSDC := keepTruthy (env.fetchText ensName "agent.maxSpendUSDC")
    allowedActions := keepTruthy (env.fetchText ensName "agent.allowedActions")
    policyVersion := keepTruthy (env.fetchText ensName "agent.policyVersion") }

/-- The comma-split, trimmed, lower-cased, empty-dropped action list of
`parsePolicy`. -/
def parseActions (raw : String) : List String :=
  ((jsSplit raw ',').map (fun action => jsToLower (jsTrim action))).filter
    (fun action => action ≠ "")

/-- `parsePolicy` (ens.ts): validate the three text records and build the
policy.  `Date.now()` is passed in as `now`.  The returned `allowedActions`
is the sorted array: the `.sort()` inside `computePolicyHash` mutates the
same array the policy object then references. -/
def parsePolicy (now : Nat) (ensName : String) (records : ENSTextRecords) :
    Except PolicyError ENSPolicy :=
  let maxSpendRaw := records.maxSpendUSDC.getD ""
  if maxSpendRaw = "" then
    Except.error ⟨"Missing required text record: agent.maxSpendUSDC", "MISSING_MAX_SPEND"⟩
  else
    let maxSpendUSDC := jsParseFloat maxSpendRaw
    if maxSpendUSDC.isNaN ∨ jsLt maxSpendUSDC jsZero then
      Except.error ⟨"Invalid maxSpendUSDC value: " ++ maxSpendRaw, "INVALID_MAX_SPEND"⟩
    else
      let allowedActionsRaw := records.allowedActions.getD ""
      if allowedActionsRaw = "" then
        Except.error ⟨"Missing required text record: agent.allowedActions", "MISSING_ALLOWED_ACTIONS"⟩
      else
        let allowedActions := parseActions allowedActionsRaw
        if allowedActions = [] then
          Except.error ⟨"No valid actions in allowedActions: " ++ allowedActionsRaw, "EMPTY_ALLOWED_ACTIONS"⟩
        else
          let policyVersion :=
            if records.policyVersion.getD "" = "" then "1.0" else records.policyVersion.getD ""
          let policyHash := computePolicyHash maxSpendUSDC allowedActions policyVersion
          Except.ok
            { ensName := ensName
              maxSpendUSDC := maxSpendUSDC
              allowedActions := jsSortStrings allowedActions
              policyVersion := policyVersion
              fetchedAt := now
              policyHash := policyHash }

/-- A cache entry: `\x7b policy, expiresAt \x7d`. -/
structure CacheEntry where
  policy : ENSPolicy
  expiresAt : Nat
deriving DecidableEq, Repr

/-- The module-level `policyCache` map, keyed by normalized ENS name. -/
def Cache := String → Option CacheEntry

/-- The empty cache (also the state after `clearPolicyCache`). -/
def emptyCache : Cache := fun _ => none

/-- `policyCache.set`. -/
def cacheInsert (st : Cache) (k : String) (e : CacheEntry) : Cache :=
  fun n => if n = k then some e else st n

/-- `CACHE_DURATION_MS = 5 * 60 * 1000`. -/
def CACHE_DURATION_MS : Nat := 5 * 60 * 1000

/-- The observable outcome of one `resolveENSPolicy` call: its result, the
cache state afterwards, and whether it queried the external resolver. -/
structure ResolveOutcome where
  result : Except PolicyError ENSPolicy
  cache : Cache
  fetched : Bool

/-- The cache-miss path of `resolveENSPolicy`: fetch the text records, parse,
and cache the policy with `expiresAt = Date.now() + CACHE_DURATION_MS` on
success (a parse error propagates before the cache is written). -/
def resolveFresh (env : ENSEnv) (st : Cache) (now : Nat) (normalizedName : String) :
    ResolveOutcome :=
  let textRecords := fetchENSTextRecords env normalizedName
  match parsePolicy now normalizedName textRecords with
  | Except.ok policy =>
    ⟨Except.ok policy, cacheInsert st normalizedName ⟨policy, now + CACHE_DURATION_MS⟩, true⟩
  | Except.error e => ⟨Except.error e, st, true⟩

/-- `resolveENSPolicy` (ens.ts): normalize the name, serve an unexpired cache
entry without fetching (`cached.expiresAt > Date.now()`), otherwise resolve
freshly.  The calls to `Date.now()` within one invocation are modelled by the
single instant `now`. -/
def resolveENSPolicy (env : ENSEnv) (st : Cache) (now : Nat) (ensName : String) :
    ResolveOutcome :=
  let normalizedName := env.normalize ensName
  match st normalizedName with
  | some cached =>
    if now < cached.expiresAt then ⟨Except.ok cached.policy, st, false⟩
    else resolveFresh env st now normalizedName
  | none => resolveFresh env st now normalizedName

/-- `isActionAllowed` (ens.ts): case-insensitive membership. -/
def isActionAllowed (policy : ENSPolicy) (actionType : String) : Bool :=
  policy.allowedActions.contains (jsToLower actionType)

/-- `isAmountWithinLimit` (ens.ts): `amount >= 0 && amount <= policy.maxSpendUSDC`. -/
def isAmountWithinLimit (policy : ENSPolicy) (amount : JSNum) : Bool :=
  jsGe amount jsZero && jsLe amount policy.maxSpendUSDC

/-- `createMockPolicy` (ens.ts): the fixed development policy. -/
def createMockPolicy (now : Nat) (ensName : String) : ENSPolicy :=
  { ensName := ensName
    maxSpendUSDC := JSNum.fin ⟨100, 0⟩
    allowedActions := ["payment", "transfer"]
    policyVersion := "1.0-mock"
    fetchedAt := now
    policyHash := "12345678" }

/- ================================
   The PolicyCompliance circuit (circuit.circom)
   ================================ -/

/-- The BN254 (bn128) scalar-field order, the field Circom computes in. -/
def BN254_R : Nat :=
  21888242871839275222246405745257275088548364400416034343698204186575808495617

/-- Output of circomlib's `LessThan(k)` on inputs already range-checked below
`2^k`: the circuit computes `in[0] + 2^k - in[1]` in the field, decomposes it
into `k+1` bits, and outputs `1 - bit k`. -/
def lessThanOut (k a b : Nat) : Nat :=
  1 - (a + 2 ^ k - b) % BN254_R / 2 ^ k % 2

/-- Output of circomlib's `LessEqThan(n)`: `LessThan(n+1)` on `(a, b+1)`. -/
def lessEqThanOut (n a b : Nat) : Nat := lessThanOut (n + 1) a (b + 1)

/-- The constraint of circomlib's `Num2Bits(n)` on an input `x` (canonical
field representative): satisfiable, with the bit signals uniquely determined,
iff `x < 2^n`. -/
def num2BitsSat (n x : Nat) : Prop := x < 2 ^ n

/-- The two public outputs of `PolicyCompliance`. -/
structure PolicyComplianceOut where
  commitment : Nat
  isValid : Nat
deriving DecidableEq, Repr

/-- Satisfiability of the `PolicyCompliance(n)` constraint system
(circuit.circom) at signal values `amount` (private), `maxSpend`, `policyHash`
(public inputs) and `out` (public outputs), with the Poseidon permutation
abstracted as `posei`.  All intermediate signals are uniquely determined, so
an assignment satisfies the system iff:
`isValid === leq.out`, `isValid === 1`, `commitment === Poseidon(amount,
policyHash)`, and the two `Num2Bits(n)` range checks. -/
def policyComplianceSat (posei : Nat → Nat → Nat) (n amount maxSpend policyHash : Nat)
    (out : PolicyComplianceOut) : Prop :=
  out.isValid = lessEqThanOut n amount maxSpend ∧
  out.isValid = 1 ∧
  out.commitment = posei amount policyHash ∧
  num2BitsSat n amount ∧
  num2BitsSat n maxSpend

/- ================================
   Proof generation (prove.ts)
   ================================ -/

/-- `ProofInputs` (types.ts): `amount` and `maxSpend` are JavaScript numbers
(finite decimals here, per the data model), `policyHash` a decimal numeric
string, carried as its value. -/
structure ProofInputs where
  amount : JSDec
  maxSpend : JSDec
  policyHash : Nat
deriving DecidableEq, Repr

/-- A Groth16 proof object as returned by snarkjs (`pi_a`/`pi_b`/`pi_c`
coordinate strings plus protocol metadata). -/
structure Groth16Proof where
  pi_a : List String
  pi_b : List (List String)
  pi_c : List String
  protocol : String
  curve : String
deriving DecidableEq, Repr

/-- `ZKProof` (types.ts). -/
structure ZKProof where
  proof : Groth16Proof
  publicSignals : List String
  commitment : String
  verified : Bool
  generatedAt : Nat
deriving DecidableEq, Repr

/-- The external world of prove.ts: artifact presence on disk, the Poseidon
primitive (`buildPoseidon` is modelled as non-throwing, leaving `poseidon`
null when unavailable, matching the code's own `if (poseidon)` handling),
snarkjs, and `Math.random`. -/
structure ZKEnv where
  wasmExists : Bool
  zkeyExists : Bool
  vkeyExists : Bool
  poseidonOk : Bool
  posei : Nat → Nat → Nat
  proveOk : Bool
  groth16Accepts : Groth16Proof → List String → Bool
  proofBytes : Groth16Proof
  randHex : Nat → String

/-- `BigInt(Math.floor(x * 1e6))` reduced into the circuit's field (USDC
fixed-point scaling with 6 decimals). -/
def scaleToField (x : JSDec) : Nat :=
  ((JSDec.mul x ⟨1000000, 0⟩).floor % (BN254_R : Int)).toNat

/-- Models `snarkjs.groth16.fullProve` on the compiled `PolicyCompliance(64)`
circuit: witness generation succeeds iff the circuit's assertions hold at the
given inputs (`isValid === 1` and the `Num2Bits(64)` range checks), in which
case the public signals are the outputs followed by the public inputs:
`[commitment, isValid, maxSpend, policyHash]`.  `proveOk = false` models any
other snarkjs failure (unreadable artifacts, etc.). -/
def fullProveModel (env : ZKEnv) (amount maxSpend policyHash : Nat) :
    Except String (Groth16Proof × List String) :=
  if env.proveOk = true ∧ lessEqThanOut 64 amount maxSpend = 1 ∧
      amount < 2 ^ 64 ∧ maxSpend < 2 ^ 64 then
    Except.ok (env.proofBytes,
      [Nat.repr (env.posei amount policyHash), "1", Nat.repr maxSpend, Nat.repr policyHash])
  else Except.error "witness generation failed"

/-- `generateMockProof` (prove.ts): validate `amount <= maxSpend` directly
(throwing when violated), compute the Poseidon commitment when the primitive
is available (else the `mock_commitment_` placeholder), synthesize random
proof bytes, and return `verified: true` unconditionally. -/
def generateMockProof (env : ZKEnv) (now : Nat) (inputs : ProofInputs) :
    Except String ZKProof :=
  if jsGt (JSNum.fin inputs.amount) (JSNum.fin inputs.maxSpend) then
    Except.error ("Amount " ++ decToString inputs.amount ++ " exceeds max spend " ++
      decToString inputs.maxSpend)
  else
    let commitment :=
      if env.poseidonOk then
        Nat.repr (env.posei (scaleToField inputs.amount) (inputs.policyHash % BN254_R))
      else
        "mock_commitment_" ++ decToString inputs.amount ++ "_" ++
          (Nat.repr inputs.policyHash).take 8
    let mockProof : Groth16Proof :=
      { pi_a := ["0x" ++ env.randHex 0, "0x" ++ env.randHex 1, "1"]
        pi_b := [["0x" ++ env.randHex 2, "0x" ++ env.randHex 3],
                 ["0x" ++ env.randHex 4, "0x" ++ env.randHex 5], ["1", "0"]]
        pi_c := ["0x" ++ env.randHex 6, "0x" ++ env.randHex 7, "1"]
        protocol := "groth16"
        curve := "bn128" }
    Except.ok
      { proof := mockProof
        publicSignals := [commitment, "1",
          Int.repr (JSDec.mul inputs.maxSpend ⟨1000000, 0⟩).floor,
          Nat.repr inputs.policyHash]
        commitment := commitment
        verified := true
        generatedAt := now }

/-- `generateProof` (prove.ts): fall to the mock path when the circuit WASM or
proving key is absent; otherwise scale the inputs, run the Groth16 prover,
take `commitment = publicSignals[0]`, self-verify when the verification key is
present (else `verified = false`), and fall back to the mock path on any
exception. -/
def generateProof (env : ZKEnv) (now : Nat) (inputs : ProofInputs) :
    Except String ZKProof :=
  if ¬(env.wasmExists = true ∧ env.zkeyExists = true) then generateMockProof env now inputs
  else
    match fullProveModel env (scaleToField inputs.amount) (scaleToField inputs.maxSpend)
        (inputs.policyHash % BN254_R) with
    | Except.error _ => generateMockProof env now inputs
    | Except.ok (pf, publicSignals) =>
      let commitment := publicSignals.headD ""
      let verified := env.vkeyExists && env.groth16Accepts pf publicSignals
      Except.ok
        { proof := pf
          publicSignals := publicSignals
          commitment := commitment
          verified := verified
          generatedAt := now }

/-- `computeCommitment` (prove.ts): `Poseidon(BigInt(Math.floor(amount*1e6)),
BigInt(policyHash))` rendered as a field-element string, using the same
Poseidon primitive as the circuit. -/
def computeCommitment (posei : Nat → Nat → Nat) (amount : JSDec) (policyHash : Nat) : String :=
  Nat.repr (posei (scaleToField amount) (policyHash % BN254_R))

/- ================================
   Proof verification (zk/verify.ts interface)
   ================================ -/

/-- `VerifyResult` (types.ts). -/
structure VerifyResult where
  valid : Bool
  error : Option String
deriving DecidableEq, Repr

/-- A proof object as received by the verifier, whose required fields may be
missing (structural malformation). -/
structure RawZKProof where
  proofData : Option Groth16Proof
  publicSignals : Option (List String)
deriving DecidableEq, Repr

/-- The external world of the verifier: verification-key loadability and the
`snarkjs.groth16.verify` outcome. -/
structure VerifyEnv where
  vkeyLoadable : Bool
  groth16Accepts : Groth16Proof → List String → Bool

/-- Modelled from the spec: the repository's proof-verifier module
(`zk/verify.ts`, imported by the server and the test suite) is not among the
provided sources.  Per §4.4 of the spec, `verifyProof` loads the verification
key, invokes the verification algorithm on the proof data and public signals,
returns `valid = true` iff the algorithm accepts — never throwing for a
well-formed but cryptographically invalid proof — and throws/fails only when
the proof object is missing required fields or the key cannot be loaded. -/
def verifyProof (env : VerifyEnv) (p : RawZKProof) : Except String VerifyResult :=
  match p.proofData, p.publicSignals with
  | some pd, some ps =>
    if env.vkeyLoadable then
      let accepted := env.groth16Accepts pd ps
      Except.ok ⟨accepted, if accepted then none else some "Proof verification failed"⟩
    else Except.error "Failed to load verification key"
  | _, _ => Except.error "Invalid proof structure: missing required fields"

/- ================================
   Witness fixtures (concrete external worlds used by witness theorems)
   ================================ -/

/-- The concrete external world used by the C3 witness. -/
def c3Env : ENSEnv :=
  ⟨fun n => n, fun _ k =>
    if k = "agent.maxSpendUSDC" then some "100"
    else if k = "agent.allowedActions" then some "payment,transfer" else none⟩

/-- The policy the C3 witness resolves. -/
def c3Policy : ENSPolicy :=
  ((resolveENSPolicy c3Env emptyCache 0 "agent.eth").result.toOption).getD
    (createMockPolicy 0 "agent.eth")

/-- The policy parsed by the C9 witness. -/
def c9Policy : ENSPolicy :=
  ((parsePolicy 0 "a.eth" ⟨some "100", some "Transfer, PAYMENT", none⟩).toOption).getD
    (createMockPolicy 0 "a.eth")

/-- An external world whose maxSpend record is the non-numeral `"Infinity"`. -/
def c10EnvInf : ENSEnv :=
  ⟨fun n => n, fun _ k =>
    if k = "agent.maxSpendUSDC" then some "Infinity"
    else if k = "agent.allowedActions" then some "payment" else none⟩

/-- An external world whose maxSpend record is the non-numeral `"100abc"`. -/
def c10EnvAbc : ENSEnv :=
  ⟨fun n => n, fun _ k =>
    if k = "agent.maxSpendUSDC" then some "100abc"
    else if k = "agent.allowedActions" then some "payment" else none⟩

/- ================================
   Supporting lemmas
   ================================ -/

/-- The comparator output of `LessEqThan(64)` on range-checked inputs is the
boolean `a ≤ b`. -/
theorem lessEqThanOut_eq64 (a b : Nat) (ha : a < 2 ^ 64) (hb : b < 2 ^ 64) :
    lessEqThanOut 64 a b = if a ≤ b then 1 else 0 := by
  unfold lessEqThanOut lessThanOut
  have hlt : a + 2 ^ 65 - (b + 1) < BN254_R := by unfold BN254_R; omega
  rw [Nat.mod_eq_of_lt hlt]
  norm_num at ha hb ⊢
  split <;> omega

theorem zpow10_pos (e : ℤ) : (0 : ℚ) < (10 : ℚ) ^ e := zpow_pos (by norm_num) e

/-- Rebase a decimal mantissa to a smaller exponent. -/
theorem decCastEq (m : ℤ) (e f : ℤ) (h : f ≤ e) :
    (m : ℚ) * (10 : ℚ) ^ e = ((m * 10 ^ (e - f).toNat : ℤ) : ℚ) * (10 : ℚ) ^ f := by
  have hk : ((e - f).toNat : ℤ) = e - f := Int.toNat_of_nonneg (by omega)
  push_cast
  rw [mul_assoc, ← zpow_natCast (10 : ℚ) (e - f).toNat, hk,
    ← zpow_add₀ (by norm_num : (10 : ℚ) ≠ 0)]
  rw [sub_add_cancel]

/-- `JSDec.ble` decides the value order. -/
theorem JSDec.ble_iff (a b : JSDec) : JSDec.ble a b = true ↔ a.toRat ≤ b.toRat := by
  simp only [JSDec.ble, JSDec.alignFst, JSDec.toRat, decide_eq_true_eq]
  rcases lt_trichotomy a.exp b.exp with h | h | h
  · rw [if_pos h.le, if_neg (not_le.mpr h), decCastEq b.mant b.exp a.exp h.le,
      mul_le_mul_right (zpow10_pos a.exp), Int.cast_le]
  · rw [if_pos h.le, if_pos h.ge, h, mul_le_mul_right (zpow10_pos b.exp), Int.cast_le]
  · rw [if_neg (not_le.mpr h), if_pos h.le, decCastEq a.mant a.exp b.exp h.le,
      mul_le_mul_right (zpow10_pos b.exp), Int.cast_le]

/-- `JSDec.blt` decides the strict value order. -/
theorem JSDec.blt_iff (a b : JSDec) : JSDec.blt a b = true ↔ a.toRat < b.toRat := by
  have h := JSDec.ble_iff b a
  simp only [JSDec.ble, decide_eq_true_eq] at h
  simp only [JSDec.blt, decide_eq_true_eq]
  simp only [← not_le]
  exact not_congr h

/- ================================
   C1: satisfiability of PolicyCompliance(64)
   ================================ -/

/-- C1: For the `PolicyCompliance(64)` constraint system, for every pair of
inputs `(amount, maxSpend)` each representable in 64 bits, a satisfying
witness exists iff `amount ≤ maxSpend`; whenever a witness exists the public
output `isValid` equals 1; and for `amount = 150×10^6`, `maxSpend = 100×10^6`
no satisfying witness exists. -/
theorem policyCompliance_satisfiable_iff (posei : Nat → Nat → Nat)
    (amount maxSpend policyHash : Nat) (ha : amount < 2 ^ 64) (hb : maxSpend < 2 ^ 64) :
    ((∃ out, policyComplianceSat posei 64 amount maxSpend policyHash out) ↔
      amount ≤ maxSpend) ∧
    (∀ out, policyComplianceSat posei 64 amount maxSpend policyHash out →
      out.isValid = 1) ∧
    ¬∃ out, policyComplianceSat posei 64 150000000 100000000 policyHash out := by
  refine ⟨⟨?_, ?_⟩, ?_, ?_⟩
  · rintro ⟨out, h1, h2, -⟩
    rw [h2, lessEqThanOut_eq64 amount maxSpend ha hb] at h1
    by_contra hc
    rw [if_neg hc] at h1
    exact one_ne_zero h1
  · intro hle
    refine ⟨⟨posei amount policyHash, 1⟩, ?_, rfl, rfl, ha, hb⟩
    rw [lessEqThanOut_eq64 amount maxSpend ha hb, if_pos hle]
  · rintro out ⟨-, h2, -⟩
    exact h2
  · rintro ⟨out, h1, h2, -⟩
    rw [h2] at h1
    have hz : lessEqThanOut 64 150000000 100000000 = 0 := by decide
    rw [hz] at h1
    exact one_ne_zero h1

/-- Witness for C1 at `amount = 50×10^6`, `maxSpend = 100×10^6`. -/
theorem policyCompliance_satisfiable_iff_witness :
    (∃ out, policyComplianceSat (fun a b => a + b) 64 50000000 100000000 12345678 out) ∧
    ¬∃ out, policyComplianceSat (fun a b => a + b) 64 150000000 100000000 12345678 out := by
  have h := policyCompliance_satisfiable_iff (fun a b => a + b) 50000000 100000000 12345678
    (by norm_num) (by norm_num)
  exact ⟨h.1.mpr (by norm_num), h.2.2⟩

/- ================================
   C8: isAmountWithinLimit
   ================================ -/

/-- C8: `isAmountWithinLimit(policy, amount)` returns true iff
`0 <= amount <= policy.maxSpendUSDC` — stated both in the JavaScript numeric
order (NaN and infinities included) and, for finite values, in the rational
value order. -/
theorem isAmountWithinLimit_iff (policy : ENSPolicy) (amount : JSNum) :
    (isAmountWithinLimit policy amount = true ↔
      (jsGe amount jsZero = true ∧ jsLe amount policy.maxSpendUSDC = true)) ∧
    (∀ q r : JSDec, amount = JSNum.fin q → policy.maxSpendUSDC = JSNum.fin r →
      (isAmountWithinLimit policy amount = true ↔ 0 ≤ q.toRat ∧ q.toRat ≤ r.toRat)) := by
  constructor
  · simp [isAmountWithinLimit]
  · rintro q r rfl hmr
    simp only [isAmountWithinLimit, hmr, jsGe, jsZero, jsLe, Bool.and_eq_true]
    rw [JSDec.ble_iff, JSDec.ble_iff]
    have h0 : JSDec.toRat ⟨0, 0⟩ = 0 := by simp [JSDec.toRat]
    rw [h0]

/-- Witness for C8 at `amount = 50`, `maxSpend = 100`. -/
theorem isAmountWithinLimit_iff_witness :
    isAmountWithinLimit
      ⟨"a.eth", JSNum.fin ⟨100, 0⟩, ["payment"], "1.0", 0, "1"⟩ (JSNum.fin ⟨50, 0⟩) = true ∧
    (0 ≤ JSDec.toRat ⟨50, 0⟩ ∧ JSDec.toRat ⟨50, 0⟩ ≤ JSDec.toRat ⟨100, 0⟩) := by
  have h := (isAmountWithinLimit_iff
    ⟨"a.eth", JSNum.fin ⟨100, 0⟩, ["payment"], "1.0", 0, "1"⟩ (JSNum.fin ⟨50, 0⟩)).2
    ⟨50, 0⟩ ⟨100, 0⟩ rfl rfl
  have hv : 0 ≤ JSDec.toRat ⟨50, 0⟩ ∧ JSDec.toRat ⟨50, 0⟩ ≤ JSDec.toRat ⟨100, 0⟩ := by
    norm_num [JSDec.toRat]
  exact ⟨h.mpr hv, hv⟩

/- ================================
   C2: generateProof error handling
   ================================ -/

/-- C2: whenever the circuit WASM or proving key is absent, or the Groth16
prover raises during real proof generation, `generateProof` returns the mock
proof instead of propagating the error; the mock path errors exactly when
`inputs.amount > inputs.maxSpend` (the one exception `generateProof` itself
raises), and otherwise returns a proof whose `verified` field is `true`
unconditionally. -/
theorem generateProof_fallback (env : ZKEnv) (now : Nat) (inputs : ProofInputs)
    (h : ¬(env.wasmExists = true ∧ env.zkeyExists = true) ∨
      ∃ e, fullProveModel env (scaleToField inputs.amount) (scaleToField inputs.maxSpend)
        (inputs.policyHash % BN254_R) = Except.error e) :
    generateProof env now inputs = generateMockProof env now inputs ∧
    ((∃ e, generateMockProof env now inputs = Except.error e) ↔
      inputs.maxSpend.toRat < inputs.amount.toRat) ∧
    (inputs.amount.toRat ≤ inputs.maxSpend.toRat →
      ∃ z, generateMockProof env now inputs = Except.ok z ∧ z.verified = true) := by
  refine ⟨?_, ?_, ?_⟩
  · unfold generateProof
    by_cases hw : ¬(env.wasmExists = true ∧ env.zkeyExists = true)
    · rw [if_pos hw]
    · rw [if_neg hw]
      rcases h with h | ⟨e, he⟩
      · exact absurd h hw
      · rw [he]
  · unfold generateMockProof
    by_cases hgt : jsGt (JSNum.fin inputs.amount) (JSNum.fin inputs.maxSpend) = true
    · rw [if_pos hgt]
      simp only [jsGt, jsLt] at hgt
      rw [JSDec.blt_iff] at hgt
      simp only [hgt, iff_true]
      exact ⟨_, rfl⟩
    · rw [if_neg hgt]
      simp only [jsGt, jsLt] at hgt
      rw [Bool.not_eq_true, ← Bool.not_eq_true, JSDec.blt_iff] at hgt
      simp only [hgt, iff_false]
      rintro ⟨e, he⟩
      exact Except.noConfusion he
  · intro hle
    unfold generateMockProof
    have hgt : ¬jsGt (JSNum.fin inputs.amount) (JSNum.fin inputs.maxSpend) = true := by
      simp only [jsGt, jsLt, JSDec.blt_iff]
      exact not_lt.mpr hle
    rw [if_neg hgt]
    exact ⟨_, rfl, rfl⟩

/-- Witness for C2: circuit artifacts absent, `amount = 50 ≤ maxSpend = 100`. -/
theorem generateProof_fallback_witness :
    ∃ z, generateMockProof
        ⟨false, false, false, false, fun a b => a + b, false, fun _ _ => false,
          ⟨[], [], [], "", ""⟩, fun _ => ""⟩ 0 ⟨⟨50, 0⟩, ⟨100, 0⟩, 1⟩ = Except.ok z ∧
      z.verified = true := by
  have h := generateProof_fallback
    ⟨false, false, false, false, fun a b => a + b, false, fun _ _ => false,
      ⟨[], [], [], "", ""⟩, fun _ => ""⟩ 0 ⟨⟨50, 0⟩, ⟨100, 0⟩, 1⟩
    (Or.inl (by simp))
  exact h.2.2 (by norm_num [JSDec.toRat])

/- ================================
   C6: verifyProof never throws on crypto-invalid proofs
   ================================ -/

/-- C6: the verifier returns `{valid: false}` rather than throwing for every
structurally well-formed but cryptographically invalid proof (the result is
`ok` with `valid` equal to the verification algorithm's verdict), and it
fails only when the proof object is missing required fields or the
verification key cannot be loaded. -/
theorem verifyProof_no_throw (env : VerifyEnv) (p : RawZKProof) (pd : Groth16Proof)
    (ps : List String) (hpd : p.proofData = some pd) (hps : p.publicSignals = some ps)
    (hv : env.vkeyLoadable = true) :
    verifyProof env p = Except.ok
      ⟨env.groth16Accepts pd ps,
        if env.groth16Accepts pd ps then none else some "Proof verification failed"⟩ ∧
    ∀ (env2 : VerifyEnv) (p2 : RawZKProof) (e : String),
      verifyProof env2 p2 = Except.error e →
      p2.proofData = none ∨ p2.publicSignals = none ∨ env2.vkeyLoadable = false := by
  constructor
  · unfold verifyProof
    rw [hpd, hps]
    simp [hv]
  · intro env2 p2 e he
    rcases hp2 : p2.proofData with _ | pd2
    · exact Or.inl rfl
    rcases hs2 : p2.publicSignals with _ | ps2
    · exact Or.inr (Or.inl rfl)
    by_cases hv2 : env2.vkeyLoadable = true
    · exfalso
      unfold verifyProof at he
      simp only [hp2, hs2, if_pos hv2] at he
      exact Except.noConfusion he
    · exact Or.inr (Or.inr (by simpa using hv2))

/-- Witness for C6: a well-formed proof the algorithm rejects still yields an
`ok` result with `valid = false`. -/
theorem verifyProof_no_throw_witness :
    verifyProof ⟨true, fun _ _ => false⟩ ⟨some ⟨[], [], [], "groth16", "bn128"⟩, some ["1"]⟩ =
      Except.ok ⟨false, some "Proof verification failed"⟩ := by
  have h := (verifyProof_no_throw ⟨true, fun _ _ => false⟩
    ⟨some ⟨[], [], [], "groth16", "bn128"⟩, some ["1"]⟩
    ⟨[], [], [], "groth16", "bn128"⟩ ["1"] rfl rfl rfl).1
  simpa using h

/- ================================
   C7: computeCommitment matches the circuit
   ================================ -/

/-- C7: `computeCommitment(amount, fingerprint)` computes the same algebraic
hash as the circuit (`Poseidon(floor(amount×10^6), fingerprint)` as a
field-element string), and for a genuine (non-mock) proof the returned
`ZKProof`'s `commitment` field equals `publicSignals[0]` and equals this
hash — which is exactly the circuit's `commitment` output on the same scaled
inputs. -/
theorem computeCommitment_matches_circuit (env : ZKEnv) (now : Nat) (inputs : ProofInputs)
    (hw : env.wasmExists = true) (hz : env.zkeyExists = true) (hp : env.proveOk = true)
    (hleq : lessEqThanOut 64 (scaleToField inputs.amount) (scaleToField inputs.maxSpend) = 1)
    (ha : scaleToField inputs.amount < 2 ^ 64) (hb : scaleToField inputs.maxSpend < 2 ^ 64) :
    ∃ z, generateProof env now inputs = Except.ok z ∧
      z.commitment = z.publicSignals.headD "" ∧
      z.commitment = computeCommitment env.posei inputs.amount inputs.policyHash ∧
      ∀ out, policyComplianceSat env.posei 64 (scaleToField inputs.amount)
          (scaleToField inputs.maxSpend) (inputs.policyHash % BN254_R) out →
        Nat.repr out.commitment = z.commitment := by
  unfold generateProof
  rw [if_neg (by simp [hw, hz])]
  unfold fullProveModel
  rw [if_pos ⟨hp, hleq, ha, hb⟩]
  refine ⟨_, rfl, rfl, rfl, ?_⟩
  rintro out ⟨-, -, hc, -⟩
  simp only [hc]
  rfl

/-- Witness for C7 at `amount = 50`, `maxSpend = 100`, `fingerprint = 7`. -/
theorem computeCommitment_matches_circuit_witness :
    ∃ z, generateProof
        ⟨true, true, true, true, fun a b => a + b, true, fun _ _ => true,
          ⟨[], [], [], "groth16", "bn128"⟩, fun _ => ""⟩ 0 ⟨⟨50, 0⟩, ⟨100, 0⟩, 7⟩ =
      Except.ok z ∧
      z.commitment = z.publicSignals.headD "" ∧
      z.commitment = computeCommitment (fun a b => a + b) ⟨50, 0⟩ 7 := by
  obtain ⟨z, h1, h2, h3, -⟩ := computeCommitment_matches_circuit
    ⟨true, true, true, true, fun a b => a + b, true, fun _ _ => true,
      ⟨[], [], [], "groth16", "bn128"⟩, fun _ => ""⟩ 0 ⟨⟨50, 0⟩, ⟨100, 0⟩, 7⟩
    rfl rfl rfl (by decide) (by decide) (by decide)
  exact ⟨z, h1, h2, h3⟩

/- ================================
   C3: cache TTL behavior
   ================================ -/

/-- A resolution that queried the external resolver went through the
cache-miss path. -/
theorem resolveENSPolicy_fetched_eq (env : ENSEnv) (st : Cache) (now : Nat) (name : String)
    (h : (resolveENSPolicy env st now name).fetched = true) :
    resolveENSPolicy env st now name = resolveFresh env st now (env.normalize name) := by
  unfold resolveENSPolicy at h ⊢
  rcases hst : st (env.normalize name) with _ | cached
  · simp only [hst]
  · simp only [hst] at h ⊢
    by_cases ht : now < cached.expiresAt
    · rw [if_pos ht] at h
      exact absurd h (by simp)
    · rw [if_neg ht]

/-- A resolution whose cache entry (if any) is expired goes through the
cache-miss path. -/
theorem resolveENSPolicy_stale_eq (env : ENSEnv) (st : Cache) (now : Nat) (name : String)
    (hfresh : ∀ e, st (env.normalize name) = some e → e.expiresAt ≤ now) :
    resolveENSPolicy env st now name = resolveFresh env st now (env.normalize name) := by
  unfold resolveENSPolicy
  rcases hst : st (env.normalize name) with _ | cached
  · simp only [hst]
  · simp only [hst]
    rw [if_neg (not_lt.mpr (hfresh cached hst))]

/-- A successful cache-miss resolution returns the parsed policy and caches it
for `CACHE_DURATION_MS`. -/
theorem resolveFresh_ok_eq (env : ENSEnv) (st : Cache) (now : Nat) (k : String)
    (p : ENSPolicy) (h : (resolveFresh env st now k).result = Except.ok p) :
    resolveFresh env st now k =
      ⟨Except.ok p, cacheInsert st k ⟨p, now + CACHE_DURATION_MS⟩, true⟩ := by
  unfold resolveFresh at h ⊢
  rcases hp : parsePolicy now k (fetchENSTextRecords env k) with e | p2
  · simp only [hp] at h
    exact Except.noConfusion h
  · simp only [hp] at h ⊢
    cases h
    rfl

/-- C3: a second resolution of the same normalized name within 5 minutes of a
successful (fetching) resolution returns the identical cached policy object,
leaves the cache unchanged, and performs no external fetch; a resolution of a
name whose cache entry has passed its expiry timestamp performs a fresh
external fetch, and on success overwrites the cache entry with the new policy
and expiry `fetch time + 5 minutes`. -/
theorem resolvePolicy_cache_ttl (env : ENSEnv) (st : Cache) (t0 t1 : Nat)
    (name name2 : String) (hnm : env.normalize name2 = env.normalize name)
    (pol : ENSPolicy)
    (h0r : (resolveENSPolicy env st t0 name).result = Except.ok pol)
    (h0f : (resolveENSPolicy env st t0 name).fetched = true)
    (ht1 : t1 < t0 + CACHE_DURATION_MS) :
    resolveENSPolicy env (resolveENSPolicy env st t0 name).cache t1 name2 =
      ⟨Except.ok pol, (resolveENSPolicy env st t0 name).cache, false⟩ ∧
    ∀ (st2 : Cache) (t2 : Nat) (name3 : String) (entry : CacheEntry),
      st2 (env.normalize name3) = some entry → entry.expiresAt < t2 →
      (resolveENSPolicy env st2 t2 name3).fetched = true ∧
      ∀ p2, (resolveENSPolicy env st2 t2 name3).result = Except.ok p2 →
        (resolveENSPolicy env st2 t2 name3).cache (env.normalize name3) =
          some ⟨p2, t2 + CACHE_DURATION_MS⟩ := by
  constructor
  · have e0 := resolveENSPolicy_fetched_eq env st t0 name h0f
    rw [e0] at h0r
    have e1 := resolveFresh_ok_eq env st t0 (env.normalize name) pol h0r
    rw [e0, e1]
    unfold resolveENSPolicy
    have hl : cacheInsert st (env.normalize name) ⟨pol, t0 + CACHE_DURATION_MS⟩
        (env.normalize name2) = some ⟨pol, t0 + CACHE_DURATION_MS⟩ := by
      rw [hnm]
      unfold cacheInsert
      rw [if_pos rfl]
    simp only [hl]
    rw [if_pos ht1]
  · intro st2 t2 name3 entry hentry hexp
    have e2 : resolveENSPolicy env st2 t2 name3 =
        resolveFresh env st2 t2 (env.normalize name3) := by
      apply resolveENSPolicy_stale_eq
      intro e he
      rw [hentry] at he
      cases he
      exact hexp.le
    constructor
    · rw [e2]
      unfold resolveFresh
      rcases hp : parsePolicy t2 (env.normalize name3)
          (fetchENSTextRecords env (env.normalize name3)) with e | p2 <;> simp [hp]
    · intro p2 hres
      rw [e2] at hres ⊢
      rw [resolveFresh_ok_eq env st2 t2 (env.normalize name3) p2 hres]
      unfold cacheInsert
      dsimp only
      rw [if_pos rfl]

/-- Witness for C3: resolve at `t = 0`, re-resolve at `t = 1` — cache hit with
the identical policy and no fetch. -/
theorem resolvePolicy_cache_ttl_witness :
    resolveENSPolicy c3Env (resolveENSPolicy c3Env emptyCache 0 "agent.eth").cache 1
        "agent.eth" =
      ⟨Except.ok c3Policy, (resolveENSPolicy c3Env emptyCache 0 "agent.eth").cache, false⟩ := by
  have h := resolvePolicy_cache_ttl c3Env emptyCache 0 1 "agent.eth" "agent.eth" rfl
    c3Policy rfl rfl (by norm_num [CACHE_DURATION_MS])
  exact h.1

/- ================================
   C5: resolvePolicy error codes
   ================================ -/

/-- C5: on a fresh (non-cached) resolution, `resolvePolicy` fails with
`MISSING_MAX_SPEND` when the maxSpend text record is absent; with
`INVALID_MAX_SPEND` when the record parses to NaN or a negative number; with
`MISSING_ALLOWED_ACTIONS` when the allowedActions record is absent; with
`EMPTY_ALLOWED_ACTIONS` when the comma-split, trimmed, lower-cased list has no
non-empty entries; and an absent version record is not an error and defaults
to `"1.0"`.  (An ENS text record that exists is a non-empty string, hence the
`≠ ""` hypotheses on present records.) -/
theorem resolvePolicy_error_codes (env : ENSEnv) (st : Cache) (now : Nat) (name : String)
    (hfresh : ∀ e, st (env.normalize name) = some e → e.expiresAt ≤ now) :
    (env.fetchText (env.normalize name) "agent.maxSpendUSDC" = none →
      ∃ err, (resolveENSPolicy env st now name).result = Except.error err ∧
        err.code = "MISSING_MAX_SPEND") ∧
    (∀ s, env.fetchText (env.normalize name) "agent.maxSpendUSDC" = some s → s ≠ "" →
      ((jsParseFloat s).isNaN = true ∨ jsLt (jsParseFloat s) jsZero = true) →
      ∃ err, (resolveENSPolicy env st now name).result = Except.error err ∧
        err.code = "INVALID_MAX_SPEND") ∧
    (∀ s, env.fetchText (env.normalize name) "agent.maxSpendUSDC" = some s → s ≠ "" →
      ¬((jsParseFloat s).isNaN = true ∨ jsLt (jsParseFloat s) jsZero = true) →
      env.fetchText (env.normalize name) "agent.allowedActions" = none →
      ∃ err, (resolveENSPolicy env st now name).result = Except.error err ∧
        err.code = "MISSING_ALLOWED_ACTIONS") ∧
    (∀ s t, env.fetchText (env.normalize name) "agent.maxSpendUSDC" = some s → s ≠ "" →
      ¬((jsParseFloat s).isNaN = true ∨ jsLt (jsParseFloat s) jsZero = true) →
      env.fetchText (env.normalize name) "agent.allowedActions" = some t → t ≠ "" →
      parseActions t = [] →
      ∃ err, (resolveENSPolicy env st now name).result = Except.error err ∧
        err.code = "EMPTY_ALLOWED_ACTIONS") ∧
    (∀ s t, env.fetchText (env.normalize name) "agent.maxSpendUSDC" = some s → s ≠ "" →
      ¬((jsParseFloat s).isNaN = true ∨ jsLt (jsParseFloat s) jsZero = true) →
      env.fetchText (env.normalize name) "agent.allowedActions" = some t → t ≠ "" →
      parseActions t ≠ [] →
      env.fetchText (env.normalize name) "agent.policyVersion" = none →
      ∃ pol, (resolveENSPolicy env st now name).result = Except.ok pol ∧
        pol.policyVersion = "1.0") := by
  have hA := resolveENSPolicy_stale_eq env st now name hfresh
  rw [hA]
  unfold resolveFresh
  refine ⟨?_, ?_, ?_, ?_, ?_⟩
  · intro hm
    have hp : parsePolicy now (env.normalize name)
        (fetchENSTextRecords env (env.normalize name)) =
        Except.error ⟨"Missing required text record: agent.maxSpendUSDC", "MISSING_MAX_SPEND"⟩ := by
      simp [parsePolicy, fetchENSTextRecords, keepTruthy, hm]
    simp only [hp]
    exact ⟨_, rfl, rfl⟩
  · intro s hm hs hbad
    have hp : parsePolicy now (env.normalize name)
        (fetchENSTextRecords env (env.normalize name)) =
        Except.error ⟨"Invalid maxSpendUSDC value: " ++ s, "INVALID_MAX_SPEND"⟩ := by
      simp [parsePolicy, fetchENSTextRecords, keepTruthy, hm, hs, hbad]
    simp only [hp]
    exact ⟨_, rfl, rfl⟩
  · intro s hm hs hgood hact
    have hp : parsePolicy now (env.normalize name)
        (fetchENSTextRecords env (env.normalize name)) =
        Except.error ⟨"Missing required text record: agent.allowedActions",
          "MISSING_ALLOWED_ACTIONS"⟩ := by
      simp [parsePolicy, fetchENSTextRecords, keepTruthy, hm, hs, hgood, hact]
    simp only [hp]
    exact ⟨_, rfl, rfl⟩
  · intro s t hm hs hgood hact ht hempty
    have hp : parsePolicy now (env.normalize name)
        (fetchENSTextRecords env (env.normalize name)) =
        Except.error ⟨"No valid actions in allowedActions: " ++ t,
          "EMPTY_ALLOWED_ACTIONS"⟩ := by
      simp [parsePolicy, fetchENSTextRecords, keepTruthy, hm, hs, hgood, hact, ht, hempty]
    simp only [hp]
    exact ⟨_, rfl, rfl⟩
  · intro s t hm hs hgood hact ht hne hver
    have hp : parsePolicy now (env.normalize name)
        (fetchENSTextRecords env (env.normalize name)) =
        Except.ok
          { ensName := env.normalize name
            maxSpendUSDC := jsParseFloat s
            allowedActions := jsSortStrings (parseActions t)
            policyVersion := "1.0"
            fetchedAt := now
            policyHash := computePolicyHash (jsParseFloat s) (parseActions t) "1.0" } := by
      simp [parsePolicy, fetchENSTextRecords, keepTruthy, hm, hs, hgood, hact, ht, hne, hver]
    simp only [hp]
    exact ⟨_, rfl, rfl⟩

/-- Witness for C5: an absent maxSpend record yields `MISSING_MAX_SPEND`, and
an `Infinity`/`payment` record pair with no version record resolves with
version `"1.0"`. -/
theorem resolvePolicy_error_codes_witness :
    (∃ err, (resolveENSPolicy ⟨fun n => n, fun _ _ => none⟩ emptyCache 0 "a.eth").result =
        Except.error err ∧ err.code = "MISSING_MAX_SPEND") ∧
    (∃ err, (resolveENSPolicy
          ⟨fun n => n, fun _ k => if k = "agent.maxSpendUSDC" then some "-5" else none⟩
          emptyCache 0 "a.eth").result =
        Except.error err ∧ err.code = "INVALID_MAX_SPEND") := by
  constructor
  · exact (resolvePolicy_error_codes ⟨fun n => n, fun _ _ => none⟩ emptyCache 0 "a.eth"
      (fun e he => Option.noConfusion he)).1 rfl
  · exact (resolvePolicy_error_codes
      ⟨fun n => n, fun _ k => if k = "agent.maxSpendUSDC" then some "-5" else none⟩
      emptyCache 0 "a.eth" (fun e he => Option.noConfusion he)).2.1 "-5" rfl
      (by decide) (by decide)

/- ================================
   Properties of the default sort order
   ================================ -/

/-- Unfolding of `lexLe` on two cons cells. -/
theorem lexLe_cons_iff (a b : Nat) (as bs : List Nat) :
    lexLe (a :: as) (b :: bs) = true ↔ (a < b ∨ (a = b ∧ lexLe as bs = true)) := by
  simp only [lexLe]
  rcases Nat.lt_trichotomy a b with h | h | h
  · simp [h]
  · subst h
    simp [lt_irrefl]
  · simp [h, Nat.lt_asymm h, Nat.ne_of_gt h]

theorem lexLe_total : ∀ (x y : List Nat), lexLe x y = true ∨ lexLe y x = true
  | [], _ => Or.inl rfl
  | _ :: _, [] => Or.inr rfl
  | a :: as, b :: bs => by
    rw [lexLe_cons_iff, lexLe_cons_iff]
    rcases Nat.lt_trichotomy a b with h | rfl | h
    · exact Or.inl (Or.inl h)
    · rcases lexLe_total as bs with ih | ih
      · exact Or.inl (Or.inr ⟨rfl, ih⟩)
      · exact Or.inr (Or.inr ⟨rfl, ih⟩)
    · exact Or.inr (Or.inl h)

theorem lexLe_trans : ∀ {x y z : List Nat},
    lexLe x y = true → lexLe y z = true → lexLe x z = true
  | [], _, _, _, _ => rfl
  | _ :: _, [], _, h1, _ => absurd h1 (by simp [lexLe])
  | _ :: _, _ :: _, [], _, h2 => absurd h2 (by simp [lexLe])
  | a :: as, b :: bs, c :: cs, h1, h2 => by
    rw [lexLe_cons_iff] at h1 h2 ⊢
    rcases h1 with h1 | ⟨rfl, h1⟩
    · rcases h2 with h2 | ⟨rfl, h2⟩
      · exact Or.inl (h1.trans h2)
      · exact Or.inl h1
    · rcases h2 with h2 | ⟨rfl, h2⟩
      · exact Or.inl h2
      · exact Or.inr ⟨rfl, lexLe_trans h1 h2⟩

theorem lexLe_antisymm : ∀ {x y : List Nat},
    lexLe x y = true → lexLe y x = true → x = y
  | [], [], _, _ => rfl
  | [], _ :: _, _, h2 => absurd h2 (by simp [lexLe])
  | _ :: _, [], h1, _ => absurd h1 (by simp [lexLe])
  | a :: as, b :: bs, h1, h2 => by
    rw [lexLe_cons_iff] at h1 h2
    rcases h1 with h1 | ⟨rfl, h1⟩
    · rcases h2 with h2 | ⟨heq, h2⟩
      · omega
      · omega
    · rcases h2 with h2 | ⟨-, h2⟩
      · omega
      · rw [lexLe_antisymm h1 h2]

/-- `Char.ofNat` round-trips on valid scalar values. -/
theorem toNat_ofNat_valid (n : Nat) (h : n.isValidChar) : (Char.ofNat n).toNat = n := by
  rw [Char.ofNat, dif_pos h]
  rfl

/-- Decoding inverts the UTF-16 encoding (surrogates are not scalar values, so
the decoder never confuses a BMP unit with a pair). -/
theorem utf16Decode_encode : ∀ (l : List Char), utf16Decode (l.flatMap charUTF16) = l
  | [] => rfl
  | c :: rest => by
    have hv : c.toNat < 0xd800 ∨ (0xdfff < c.toNat ∧ c.toNat < 0x110000) := c.valid
    rw [List.flatMap_cons]
    unfold charUTF16
    by_cases hb : c.toNat < 0x10000
    · rw [if_pos hb]
      show utf16Decode (c.toNat :: rest.flatMap charUTF16) = c :: rest
      unfold utf16Decode
      rw [if_neg (by rcases hv with h | ⟨h1, h2⟩ <;> omega)]
      rw [Char.ofNat_toNat, utf16Decode_encode rest]
    · rw [if_neg hb]
      show utf16Decode (_ :: _ :: rest.flatMap charUTF16) = c :: rest
      unfold utf16Decode
      rw [if_pos (by rcases hv with h | ⟨h1, h2⟩ <;> omega)]
      dsimp only
      have harg : 0x10000 + (0xd800 + (c.toNat - 0x10000) / 0x400 - 0xd800) * 0x400 +
          (0xdc00 + (c.toNat - 0x10000) % 0x400 - 0xdc00) = c.toNat := by
        omega
      rw [harg, Char.ofNat_toNat, utf16Decode_encode rest]

/-- The UTF-16 code-unit view of a string is injective. -/
theorem stringUTF16_inj {s t : String} (h : stringUTF16 s = stringUTF16 t) : s = t := by
  have hs := utf16Decode_encode s.data
  have ht := utf16Decode_encode t.data
  unfold stringUTF16 at h
  rw [h, ht] at hs
  cases s
  cases t
  cases hs
  rfl

instance : IsTotal String (fun a b => utf16Le a b = true) :=
  ⟨fun a b => lexLe_total (stringUTF16 a) (stringUTF16 b)⟩

instance : IsTrans String (fun a b => utf16Le a b = true) :=
  ⟨fun _ _ _ h1 h2 => lexLe_trans h1 h2⟩

instance : IsAntisymm String (fun a b => utf16Le a b = true) :=
  ⟨fun _ _ h1 h2 => stringUTF16_inj (lexLe_antisymm h1 h2)⟩

theorem jsSortStrings_sorted (l : List String) :
    List.Sorted (fun a b => utf16Le a b = true) (jsSortStrings l) :=
  List.sorted_insertionSort _ l

theorem jsSortStrings_perm (l : List String) : (jsSortStrings l).Perm l :=
  List.perm_insertionSort _ l

/-- Sorting by the (antisymmetric, total) default order is invariant under
permutation of the input. -/
theorem jsSortStrings_congr {l l2 : List String} (h : l.Perm l2) :
    jsSortStrings l = jsSortStrings l2 :=
  List.eq_of_perm_of_sorted
    ((jsSortStrings_perm l).trans (h.trans (jsSortStrings_perm l2).symm))
    (jsSortStrings_sorted l) (jsSortStrings_sorted l2)

/- ================================
   C4: fingerprint determinism
   ================================ -/

/-- C4: the policy fingerprint is a pure function of
`(maxSpend, allowedActions, version)` (it is a Lean function of exactly this
triple), is invariant under permutation of the `allowedActions` list, and is
always the decimal representation of a non-negative integer. -/
theorem computePolicyHash_deterministic (maxSpendUSDC : JSNum) (policyVersion : String)
    (l l2 : List String) (hperm : l.Perm l2) :
    computePolicyHash maxSpendUSDC l policyVersion =
      computePolicyHash maxSpendUSDC l2 policyVersion ∧
    ∃ n : ℕ, computePolicyHash maxSpendUSDC l policyVersion = Nat.repr n := by
  refine ⟨?_, ⟨_, rfl⟩⟩
  unfold computePolicyHash
  rw [jsSortStrings_congr hperm]

/-- Witness for C4: the two orderings of `payment, transfer` fingerprint
identically. -/
theorem computePolicyHash_deterministic_witness :
    computePolicyHash (JSNum.fin ⟨100, 0⟩) ["transfer", "payment"] "1.0" =
      computePolicyHash (JSNum.fin ⟨100, 0⟩) ["payment", "transfer"] "1.0" ∧
    ∃ n : ℕ, computePolicyHash (JSNum.fin ⟨100, 0⟩) ["transfer", "payment"] "1.0" =
      Nat.repr n :=
  computePolicyHash_deterministic (JSNum.fin ⟨100, 0⟩) "1.0" ["transfer", "payment"]
    ["payment", "transfer"] (by decide)

/- ================================
   C9: parsed action lists are lowercase, trimmed, non-empty, sorted
   ================================ -/

/-- Characters are equal iff their scalar values are. -/
theorem char_eq_of_toNat_eq {c d : Char} (h : c.toNat = d.toNat) : c = d := by
  rw [← Char.ofNat_toNat c, ← Char.ofNat_toNat d, h]

/-- The scalar value of `jsToLowerChar`. -/
theorem toNat_jsToLowerChar (c : Char) :
    (jsToLowerChar c).toNat =
      if 65 ≤ c.toNat ∧ c.toNat ≤ 90 then c.toNat + 32 else c.toNat := by
  unfold jsToLowerChar
  by_cases h : 65 ≤ c.toNat ∧ c.toNat ≤ 90
  · rw [if_pos h, if_pos h, toNat_ofNat_valid _ (Or.inl (by omega))]
  · rw [if_neg h, if_neg h]

/-- Lower-casing never produces an upper-case letter. -/
theorem jsToLowerChar_not_upper (c : Char) :
    ¬(65 ≤ (jsToLowerChar c).toNat ∧ (jsToLowerChar c).toNat ≤ 90) := by
  rw [toNat_jsToLowerChar]
  split <;> omega

theorem jsToLowerChar_eq_self {d : Char} (h : ¬(65 ≤ d.toNat ∧ d.toNat ≤ 90)) :
    jsToLowerChar d = d := by
  unfold jsToLowerChar
  rw [if_neg h]

theorem jsToLowerChar_idem (c : Char) :
    jsToLowerChar (jsToLowerChar c) = jsToLowerChar c :=
  jsToLowerChar_eq_self (jsToLowerChar_not_upper c)

/-- `isJsSpace` in terms of the scalar value. -/
theorem isJsSpace_toNat (c : Char) :
    isJsSpace c = decide (c.toNat = 32 ∨ c.toNat = 9 ∨ c.toNat = 10 ∨ c.toNat = 13 ∨
      c.toNat = 11 ∨ c.toNat = 12 ∨ c.toNat = 160) := by
  unfold isJsSpace
  rw [decide_eq_decide]
  constructor
  · rintro (rfl | rfl | rfl | rfl | rfl | rfl | rfl) <;> simp
  · rintro (h | h | h | h | h | h | h)
    · exact Or.inl (char_eq_of_toNat_eq (by rw [h]; decide))
    · exact Or.inr (Or.inl (char_eq_of_toNat_eq (by rw [h]; decide)))
    · exact Or.inr (Or.inr (Or.inl (char_eq_of_toNat_eq (by rw [h]; decide))))
    · exact Or.inr (Or.inr (Or.inr (Or.inl (char_eq_of_toNat_eq (by rw [h]; decide)))))
    · exact Or.inr (Or.inr (Or.inr (Or.inr (Or.inl
        (char_eq_of_toNat_eq (by rw [h]; decide))))))
    · exact Or.inr (Or.inr (Or.inr (Or.inr (Or.inr (Or.inl
        (char_eq_of_toNat_eq (by rw [h]; decide)))))))
    · exact Or.inr (Or.inr (Or.inr (Or.inr (Or.inr (Or.inr
        (char_eq_of_toNat_eq (by rw [h]; decide)))))))

/-- Lower-casing preserves whitespace-ness. -/
theorem isJsSpace_jsToLowerChar (c : Char) :
    isJsSpace (jsToLowerChar c) = isJsSpace c := by
  rw [isJsSpace_toNat, isJsSpace_toNat, toNat_jsToLowerChar]
  split
  · next h => exact decide_eq_decide.mpr (by omega)
  · rfl

theorem dropWhile_idem {α : Type} (p : α → Bool) (l : List α) :
    (l.dropWhile p).dropWhile p = l.dropWhile p := by
  induction l with
  | nil => rfl
  | cons a l ih =>
    by_cases h : p a
    · simp [List.dropWhile_cons, h, ih]
    · simp [List.dropWhile_cons, h]

/-- A prefix of a list with no leading `p` also has no leading `p`. -/
theorem dropWhile_eq_self_of_leading {α : Type} (p : α → Bool) {t m : List α}
    (ht : t <+: m) (hm : m.dropWhile p = m) : t.dropWhile p = t := by
  cases t with
  | nil => rfl
  | cons a t2 =>
    obtain ⟨r, hr⟩ := ht
    have hpa : p a = false := by
      by_contra hc
      rw [Bool.not_eq_false] at hc
      rw [← hr] at hm
      simp only [List.cons_append, List.dropWhile_cons, hc, if_true] at hm
      have hlen := congrArg List.length hm
      have hle : (List.dropWhile p (t2 ++ r)).length ≤ (t2 ++ r).length :=
        (List.dropWhile_suffix p).length_le
      simp only [List.length_cons] at hlen
      omega
    rw [List.dropWhile_cons, if_neg (by simp [hpa])]

theorem trimCharList_idem (l : List Char) :
    trimCharList (trimCharList l) = trimCharList l := by
  unfold trimCharList
  have hmstable : (l.dropWhile isJsSpace).dropWhile isJsSpace = l.dropWhile isJsSpace :=
    dropWhile_idem isJsSpace l
  have htpre : (((l.dropWhile isJsSpace).reverse.dropWhile isJsSpace).reverse) <+:
      l.dropWhile isJsSpace := by
    conv_rhs => rw [← List.reverse_reverse (l.dropWhile isJsSpace)]
    exact List.reverse_prefix.mpr (List.dropWhile_suffix isJsSpace)
  rw [dropWhile_eq_self_of_leading isJsSpace htpre hmstable]
  rw [List.reverse_reverse, dropWhile_idem]

/-- Trimming commutes with lower-casing. -/
theorem trimCharList_map_lower (l : List Char) :
    trimCharList (l.map jsToLowerChar) = (trimCharList l).map jsToLowerChar := by
  have hp : (isJsSpace ∘ jsToLowerChar) = isJsSpace := funext fun c => isJsSpace_jsToLowerChar c
  unfold trimCharList
  rw [List.dropWhile_map, hp, ← List.map_reverse, List.dropWhile_map, hp, ← List.map_reverse]

theorem jsToLower_idem (s : String) : jsToLower (jsToLower s) = jsToLower s := by
  unfold jsToLower
  show String.mk ((s.data.map jsToLowerChar).map jsToLowerChar) = _
  rw [List.map_map]
  have : (jsToLowerChar ∘ jsToLowerChar) = jsToLowerChar := funext fun c => jsToLowerChar_idem c
  rw [this]

theorem jsTrim_jsToLower_jsTrim (s : String) :
    jsTrim (jsToLower (jsTrim s)) = jsToLower (jsTrim s) := by
  unfold jsTrim jsToLower
  show String.mk (trimCharList ((trimCharList s.data).map jsToLowerChar)) = _
  rw [trimCharList_map_lower, trimCharList_idem]

/-- Inversion of a successful `parsePolicy`: the action list of the returned
policy is the sorted parse of a present, non-empty `allowedActions` record. -/
theorem parsePolicy_ok_inv (now : Nat) (ensName : String) (records : ENSTextRecords)
    (pol : ENSPolicy) (h : parsePolicy now ensName records = Except.ok pol) :
    ∃ raw, records.allowedActions = some raw ∧ raw ≠ "" ∧ parseActions raw ≠ [] ∧
      pol.allowedActions = jsSortStrings (parseActions raw) := by
  simp only [parsePolicy] at h
  by_cases h1 : records.maxSpendUSDC.getD "" = ""
  · rw [if_pos h1] at h
    exact Except.noConfusion h
  rw [if_neg h1] at h
  by_cases h2 : (jsParseFloat (records.maxSpendUSDC.getD "")).isNaN = true ∨
      jsLt (jsParseFloat (records.maxSpendUSDC.getD "")) jsZero = true
  · rw [if_pos h2] at h
    exact Except.noConfusion h
  rw [if_neg h2] at h
  by_cases h3 : records.allowedActions.getD "" = ""
  · rw [if_pos h3] at h
    exact Except.noConfusion h
  rw [if_neg h3] at h
  by_cases h4 : parseActions (records.allowedActions.getD "") = []
  · rw [if_pos h4] at h
    exact Except.noConfusion h
  rw [if_neg h4] at h
  injection h with h
  subst h
  rcases hrec : records.allowedActions with _ | raw
  · rw [hrec] at h3
    exact absurd rfl h3
  · rw [hrec] at h3 h4
    exact ⟨raw, rfl, h3, h4, rfl⟩

/-- C9: every policy returned by `parsePolicy` (hence by `resolveENSPolicy`)
has a non-empty `allowedActions` list whose entries are non-empty, trimmed and
lowercase, sorted in JavaScript's default lexicographic order regardless of
the order in the source text record — the `.sort()` inside `computePolicyHash`
sorts the shared array in place before the policy object is returned. -/
theorem parsePolicy_actions_sorted (now : Nat) (ensName : String)
    (records : ENSTextRecords) (pol : ENSPolicy)
    (h : parsePolicy now ensName records = Except.ok pol) :
    pol.allowedActions ≠ [] ∧
    (∀ e ∈ pol.allowedActions, e ≠ "" ∧ jsTrim e = e ∧ jsToLower e = e) ∧
    List.Sorted (fun a b => utf16Le a b = true) pol.allowedActions ∧
    ∃ raw, records.allowedActions = some raw ∧
      pol.allowedActions = jsSortStrings (parseActions raw) := by
  obtain ⟨raw, hrec, hraw, hne, hact⟩ := parsePolicy_ok_inv now ensName records pol h
  refine ⟨?_, ?_, ?_, raw, hrec, hact⟩
  · rw [hact]
    intro hc
    have hperm := jsSortStrings_perm (parseActions raw)
    rw [hc] at hperm
    exact hne hperm.symm.eq_nil
  · rw [hact]
    intro e he
    have he2 : e ∈ parseActions raw := (jsSortStrings_perm (parseActions raw)).mem_iff.mp he
    unfold parseActions at he2
    obtain ⟨hin, hkeep⟩ := List.mem_filter.mp he2
    obtain ⟨a, -, rfl⟩ := List.mem_map.mp hin
    refine ⟨of_decide_eq_true hkeep, jsTrim_jsToLower_jsTrim a, ?_⟩
    exact jsToLower_idem (jsTrim a)
  · rw [hact]
    exact jsSortStrings_sorted (parseActions raw)

/-- Witness for C9: the record `"Transfer, PAYMENT"` parses to the sorted,
lower-cased `["payment", "transfer"]`. -/
theorem parsePolicy_actions_sorted_witness :
    c9Policy.allowedActions = ["payment", "transfer"] ∧
    c9Policy.allowedActions ≠ [] ∧
    List.Sorted (fun a b => utf16Le a b = true) c9Policy.allowedActions := by
  have h := parsePolicy_actions_sorted 0 "a.eth"
    ⟨some "100", some "Transfer, PAYMENT", none⟩ c9Policy rfl
  exact ⟨by decide, h.1, h.2.2.1⟩

/- ================================
   C10: non-numeral maxSpend records that resolve successfully
   ================================ -/

/-- C10: maxSpend validation only rejects a record whose `parseFloat` result
is NaN or negative, so some records that are not decimal numerals resolve
successfully: `"Infinity"` yields `maxSpendUSDC = Infinity` and `"100abc"`
yields `maxSpendUSDC = 100`. -/
theorem resolvePolicy_nonNumeral_accepted :
    (∃ pol, (resolveENSPolicy c10EnvInf emptyCache 0 "agent.eth").result =
        Except.ok pol ∧ pol.maxSpendUSDC = JSNum.inf) ∧
    (∃ pol, (resolveENSPolicy c10EnvAbc emptyCache 0 "agent.eth").result =
        Except.ok pol ∧ pol.maxSpendUSDC = JSNum.fin ⟨100, 0⟩) ∧
    jsParseFloat "Infinity" = JSNum.inf ∧
    jsParseFloat "100abc" = JSNum.fin ⟨100, 0⟩ := by
  refine ⟨⟨_, rfl, ?_⟩, ⟨_, rfl, ?_⟩, by decide, by decide⟩ <;> decide
